import Mathlib

/-!
Verification development for the audiojnd parameter-sweep pipeline
(`transforms.py`).

The program declares a catalog of sox transforms, and for each input audio
file it picks a random transform, one of its continuous parameters as the
variable axis, renders a sorted sweep of `N_TRANSFORMS` transformed
versions, measures a perceptual distance from each non-anchor version back
to the anchor (the lowest swept value), and prints the Spearman rank
correlation of the distance sequence against the sweep index sequence.

Embedding conventions:
* Python floats are modelled as real numbers (`ℝ`); the numeric literals of
  the compiled-in catalog are modelled as rationals (`ℚ`) so the catalog
  stays decidable.
* The process-wide random generator is modelled as an oracle (`Rng`)
  passed explicitly: each `random.choice` becomes an index field and each
  `random.uniform` becomes a supplied real number, preserving the draw
  structure of the code (one draw per non-variable continuous entry, one
  choice per categorical entry, `N_TRANSFORMS` draws for the sweep).
* Fallible steps (a `ValueError` / `IndexError` raised by the code) are
  modelled with `Option`: `none` is an uncaught exception.
* External collaborators (the sox effects engine, the audio codec, the
  perceptual distance, `scipy.stats.spearmanr`) are opaque parameters;
  the rank-correlation primitive is additionally wrapped by a definition
  modelled from the spec so that its degenerate (NaN) case is visible.
* Python's `dict` is modelled extensionally as `String → Option PVal`;
  `list.sort()` on floats is modelled by `List.insertionSort (· ≤ ·)`
  (ascending order on `ℝ` is antisymmetric, so every correct sort produces
  the same list and stability is irrelevant).
-/

/-- The constant `N_TRANSFORMS = 32` (line 15). -/
def N_TRANSFORMS : ℕ := 32

/-- A categorical parameter value appearing in the catalog: a Python bool,
int, string, or `None` (the absence marker in gain's `balance`). -/
inductive CatVal where
  | bool (b : Bool)
  | int (n : ℤ)
  | str (s : String)
  | none
deriving DecidableEq

/-- One element of a spec's continuous-parameter list.  The documented
format (lines 27-28) is a `(name, min, max)` triple, but the `pitch` entry
(line 103) instead contains a bare string `"n_semitones"` and a bare pair
`(-12, 12)`, so the embedding keeps all three shapes that occur. -/
inductive ContEntry where
  | triple (name : String) (low high : ℚ)
  | str (s : String)
  | pair (low high : ℚ)
deriving DecidableEq

/-- Whether a continuous entry has the documented `(name, low, high)`
shape; iterating `for param, low, hi in transform_spec[1]` (line 144)
raises `ValueError` on any entry for which this is false. -/
def ContEntry.isTriple : ContEntry → Bool
  | .triple _ _ _ => true
  | _ => false

/-- A transform specification: `(name, continuous list, categorical list)`
(lines 27-28). -/
structure TransformSpec where
  name : String
  continuous : List ContEntry
  categorical : List (String × List CatVal)
deriving DecidableEq

/-- The compiled-in transforms catalog (lines 30-126), transcribed entry
by entry.  Note the `pitch` entry keeps the source's misplaced brackets:
`["n_semitones", (-12, 12)]` instead of `[("n_semitones", -12, 12)]`. -/
def transforms : List TransformSpec := [
  ⟨"allpass", [.triple "midi" 21 108, .triple "width_q" 0.1 5], []⟩,
  ⟨"bandpass", [.triple "midi" 21 108, .triple "width_q" 0.1 5],
    [("constant_skirt", [.bool true, .bool false])]⟩,
  ⟨"bandreject", [.triple "midi" 21 108, .triple "width_q" 0.1 5], []⟩,
  ⟨"bass", [.triple "gain_db" (-20) 20, .triple "midi" 21 108, .triple "slope" 0.3 1.0], []⟩,
  ⟨"chorus", [.triple "gain_in" 0.0 1.0, .triple "gain_out" 0.0 1.0],
    [("n_voices", [.int 2, .int 3, .int 4])]⟩,
  ⟨"compand", [.triple "attack_time" 0.01 1.0, .triple "decay_time" 0.01 2.0,
    .triple "soft_knee_db" 0.0 12.0], []⟩,
  ⟨"contrast", [.triple "amount" 0 100], []⟩,
  ⟨"echo", [.triple "gain_in" 0 1, .triple "gain_out" 0 1], []⟩,
  ⟨"equalizer", [.triple "midi" 21 108, .triple "gain_db" (-20) 20, .triple "width_q" 0.1 5], []⟩,
  ⟨"fade", [.triple "fade_in_len" 0 2, .triple "fade_out_len" 0 2],
    [("fade_shape", [.str "q", .str "h", .str "t", .str "l", .str "p"])]⟩,
  ⟨"flanger", [.triple "delay" 0 30, .triple "depth" 0 10, .triple "regen" (-95) 95,
    .triple "width" 0 100, .triple "speed" 0.1 10.0, .triple "phase" 0 100],
    [("shape", [.str "triangle", .str "sine"]), ("interp", [.str "linear", .str "quadratic"])]⟩,
  ⟨"gain", [.triple "gain_db" (-20) 20],
    [("normalize", [.bool true, .bool false]), ("limiter", [.bool true, .bool false]),
     ("balance", [.none, .str "e", .str "B", .str "b"])]⟩,
  ⟨"highpass", [.triple "midi" 21 108, .triple "width_q" 0.1 5],
    [("n_poles", [.int 1, .int 2])]⟩,
  ⟨"lowpass", [.triple "midi" 21 108, .triple "width_q" 0.1 5],
    [("n_poles", [.int 1, .int 2])]⟩,
  ⟨"overdrive", [.triple "gain_db" (-40) 40, .triple "colour" (-40) 40], []⟩,
  ⟨"phaser", [.triple "gain_in" 0 1, .triple "gain_out" 0 1, .triple "delay" 0 5,
    .triple "decay" 0.1 0.5, .triple "speed" 0.1 2],
    [("modulation_shape", [.str "sinusoidal", .str "triangular"])]⟩,
  ⟨"pitch", [.str "n_semitones", .pair (-12) 12], [("quick", [.bool true, .bool false])]⟩,
  ⟨"reverb", [.triple "reverberance" 0 100, .triple "high_freq_damping" 0 100,
    .triple "room_scale" 0 100, .triple "stereo_depth" 0 100, .triple "pre_delay" 0 1000,
    .triple "wet_gain" (-20) 20], [("wet_only", [.bool true, .bool false])]⟩,
  ⟨"speed", [.triple "factor" 0.5 1.5], []⟩,
  ⟨"stretch", [.triple "factor" 0.5 1.5], [("window", [.int 10, .int 20, .int 50])]⟩,
  ⟨"tempo", [.triple "factor" 0.5 1.5],
    [("audio_type", [.str "m", .str "s", .str "l"]), ("quick", [.bool true, .bool false])]⟩,
  ⟨"treble", [.triple "gain_db" (-20) 20, .triple "midi" 21 108, .triple "slope" 0.3 1.0], []⟩,
  ⟨"tremolo", [.triple "speed" 0.1 10.0, .triple "depth" 0 100], []⟩]

/-- The function `note_to_freq` (lines 21-23): equal-tempered MIDI-note to frequency,
`(440 / 32) * 2 ** ((note - 9) / 12)`. -/
noncomputable def note_to_freq (note : ℝ) : ℝ :=
  (440 / 32) * (2 : ℝ) ^ ((note - 9) / 12)

/-- The function `choose_value` (lines 129-135) after the uniform draw: the drawn value
`v` (which `random.uniform(low, hi)` guarantees lies in `[low, hi]`) is
passed explicitly.  A parameter named `"midi"` is renamed to
`"frequency"` and converted through `note_to_freq`. -/
noncomputable def choose_value (name : String) (v : ℝ) : String × ℝ :=
  if name = "midi" then ("frequency", note_to_freq v) else (name, v)

/-- A value stored in the `params` dictionary: a float (continuous
parameter, possibly midi-converted) or a categorical value. -/
inductive PVal where
  | num (x : ℝ)
  | cat (v : CatVal)

/-- Python dictionary assignment `m[k] = v`, modelled extensionally. -/
def insertP (m : String → Option PVal) (k : String) (v : PVal) :
    String → Option PVal :=
  fun k2 => if k2 = k then some v else m k2

/-- The empty dictionary `{}` (line 141). -/
def emptyP : String → Option PVal := fun _ => Option.none

/-- The random draws consumed by one `transform_file` call, in oracle
form: `specChoice` is the index drawn by `random.choice(transforms)`
(line 139), `varChoice` the index drawn by
`random.choice(transform_spec[1])` (line 142), `contDraw i` the
`random.uniform` draw used for the i-th continuous entry (line 130 via
line 147), `catChoice i` the index drawn by `random.choice(vals)` for the
i-th categorical entry (line 150), and `sweepDraw j` the j-th of the
`N_TRANSFORMS` sweep draws (line 153). -/
structure Rng where
  specChoice : ℕ
  varChoice : ℕ
  contDraw : ℕ → ℝ
  catChoice : ℕ → ℕ
  sweepDraw : ℕ → ℝ

/-- The per-file sample produced by lines 139-156: the transform name, the
raw variable-axis name (`"midi"` not yet renamed), the fixed parameter
assignment template, and the sorted sweep values. -/
structure SampleOut where
  transform : String
  varName : String
  params : String → Option PVal
  values : List ℝ

/-- Lines 144-150: the fixed parameter template — iterate the continuous
entries in order, skipping the one whose name is the variable, pass each
draw through `choose_value` and store it; then store one drawn value per
categorical entry. -/
@[irreducible] noncomputable def fixedParams (spec : TransformSpec) (rng : Rng)
    (varName : String) : String → Option PVal :=
  let params0 := spec.continuous.enum.foldl (fun acc p =>
    match p.2 with
    | ContEntry.triple param _ _ =>
      if param = varName then acc
      else
        let pv := choose_value param (rng.contDraw p.1)
        insertP acc pv.1 (PVal.num pv.2)
    | _ => acc) emptyP
  spec.categorical.enum.foldl (fun acc p =>
    insertP acc p.2.1 (PVal.cat (p.2.2.getD (rng.catChoice p.1) CatVal.none)))
    params0

/-- Lines 152-156: draw `N_TRANSFORMS` sweep values through
`choose_value` and sort them ascending (`variable_values.sort()`). -/
@[irreducible] noncomputable def sweepValues (varName : String) (rng : Rng) : List ℝ :=
  ((List.range N_TRANSFORMS).map
    (fun i => (choose_value varName (rng.sweepDraw i)).2)).insertionSort
    (fun a b => a ≤ b)

/-- Lines 139-156 of `transform_file`, for a given spec: select the
variable entry, build the fixed params dictionary, then draw and sort the
sweep values.  Returns `none` when the code raises: if any continuous
entry is not a `(name, low, high)` triple the unpacking in
`for param, low, hi in transform_spec[1]` (line 144) raises `ValueError`
(and line 153 would fail on a non-triple variable entry), and
`random.choice` on an empty continuous list raises `IndexError`. -/
noncomputable def sampleStage (spec : TransformSpec) (rng : Rng) :
    Option SampleOut :=
  if spec.continuous.all ContEntry.isTriple then
    match spec.continuous.get? rng.varChoice with
    | Option.none => Option.none
    | some (ContEntry.str _) => Option.none
    | some (ContEntry.pair _ _) => Option.none
    | some (ContEntry.triple varName _ _) =>
      some ⟨spec.name, varName, fixedParams spec rng varName,
        sweepValues varName rng⟩
  else Option.none

/-- The axis rename of lines 160-161: `if variable == "midi": variable =
"frequency"`. -/
def renderLabel (v : String) : String := if v = "midi" then "frequency" else v

/-- Fuel-driven little-endian decimal digits of a natural number; the
fuel bounds the digit count.  `revDigitsAux (n+1) n` computes the digits
of `n`, least significant first. -/
def revDigitsAux : ℕ → ℕ → List ℕ
  | 0, _ => []
  | fuel + 1, n => if n < 10 then [n] else n % 10 :: revDigitsAux fuel (n / 10)

/-- Little-endian decimal digits of `n` (`[0]` for `0`). -/
def revDigits (n : ℕ) : List ℕ := revDigitsAux (n + 1) n

/-- The decimal digit characters of `n`, most significant first: the
plain decimal rendering used by Python's string formatting. -/
def decimalStr (n : ℕ) : List Char := ((revDigits n).map Nat.digitChar).reverse

/-- Zero-pad a character list on the left to width `w` (no-op when the
list is already at least that wide, as Python's zero-padding widens the
field instead of truncating). -/
def padZeros (w : ℕ) (s : List Char) : List Char :=
  List.replicate (w - s.length) '0' ++ s

/-- The Python format spec `010.3F` applied to the (idealized, real
valued) input, expressed on the integer number of thousandths
`n = round(v * 1000)`: sign, then the integer part zero-padded so the
whole field has width 10, then a point and exactly three fraction
digits.  (Python rounds the binary float half-to-even; the idealization
`round` used below differs only on exact multiples of 0.0005, which no
statement here touches.) -/
def formatThousandths (n : ℤ) : String :=
  let m := n.natAbs
  ⟨(if n < 0 then ['-'] else []) ++
    padZeros (if n < 0 then 5 else 6) (decimalStr (m / 1000)) ++
    '.' :: padZeros 3 (decimalStr (m % 1000))⟩

/-- The formatted value `"010.3F".format(v)` (line 166) under the
real-number idealization of float formatting: round to the nearest
thousandth, then print fixed-width. -/
noncomputable def format10_3 (v : ℝ) : String :=
  formatThousandths (round (v * 1000))

/-- The derived output path of lines 163-168:
`os.path.join("data/transforms", ...)` of the transform name, the source
base name `os.path.split(f)[1]`, the (renamed) variable label and the
formatted value, with extension `.ogg`. -/
noncomputable def outPath (transform fbase label : String) (v : ℝ) : String :=
  "data/transforms/" ++ transform ++ "-" ++ fbase ++ "-" ++ label ++ "-" ++
    format10_3 v ++ ".ogg"

/-- The rendered-artifact paths, one per sweep value in sweep order
(lines 159-169). -/
noncomputable def mkOutfiles (transform fbase label : String) (values : List ℝ) :
    List String :=
  values.map (outPath transform fbase label)

/-- The full parameter assignment handed to the effects engine for sweep
value `v` (lines 171-172): a copy of the fixed template with the renamed
variable label mapped to `v`. -/
noncomputable def mkAssignment (out : SampleOut) (v : ℝ) :
    String → Option PVal :=
  insertP out.params (renderLabel out.varName) (PVal.num v)

/-- The truncation of lines 181-184: when the decoded buffers differ in
length, cut the longer one down to the shorter one's length (no padding,
no resampling). -/
def truncStep (input target : List ℝ) : List ℝ × List ℝ :=
  if input.length < target.length then (input, target.take input.length)
  else (input.take target.length, target)

/-- Lines 177-185: decode each non-anchor artifact (`outfiles[1:]`) and
the anchor (`outfiles[0]`), truncate, and take the external perceptual
distance, in original sweep order.  `decode` is the opaque audio-read
collaborator (`sf.read`), `d` the opaque distance collaborator
(`auraloss` MultiResolutionSTFTLoss).  An empty `outfiles` list yields an
empty loop, hence no distances, just as in the code. -/
def computeDists (decode : String → List ℝ) (d : List ℝ → List ℝ → ℝ) :
    List String → List ℝ
  | [] => []
  | anchor :: rest => rest.map (fun f2 =>
      let input := decode f2
      let target := decode anchor
      d (truncStep input target).1 (truncStep input target).2)

/-- All elements of a list are equal (a constant sequence). -/
def AllSame {α : Type} (xs : List α) : Prop := ∀ x ∈ xs, ∀ y ∈ xs, x = y

/-- Modelled from the spec: the external rank-correlation collaborator
`scipy.stats.spearmanr` (line 187), which is not part of this repository.
Per the spec's collaborator contract it takes two equal-length sequences
of length at least 2 and returns a coefficient, and it "surfaces an
undefined/NaN coefficient rather than raising" when the input is
degenerate (fewer than 2 samples, or a constant sequence).  `corrVal`
supplies the opaque coefficient of the well-defined case; `none` is the
undefined/NaN outcome (a normal completion, not an exception). -/
noncomputable def correlate_spec (corrVal : List ℝ → List ℕ → ℝ)
    (xs : List ℝ) (ys : List ℕ) : Option ℝ :=
  open Classical in
  if 2 ≤ xs.length ∧ xs.length = ys.length ∧ ¬ AllSame xs ∧ ¬ AllSame ys then
    some (corrVal xs ys)
  else Option.none

/-- The artifact paths of one file's sweep (lines 159-169 applied to the
sample). -/
noncomputable def fileOutfiles (out : SampleOut) (fbase : String) :
    List String :=
  mkOutfiles out.transform fbase (renderLabel out.varName) out.values

/-- The distance sequence of one file's sweep (lines 177-185 applied to
the artifact paths). -/
noncomputable def fileDists (decode : String → List ℝ)
    (d : List ℝ → List ℝ → ℝ) (out : SampleOut) (fbase : String) : List ℝ :=
  computeDists decode d (fileOutfiles out fbase)

/-- The driver body `transform_file(f)` (lines 138-187) end to end: draw a transform
spec, sample the sweep, derive the artifact paths, compute the distance
sequence and print the Spearman coefficient of the distances against
`range(len(dists))`.  The outer `Option` is an uncaught exception
(`none`); a normal run returns the printed value, itself `Option ℝ`
(`none` being the undefined/NaN coefficient).  `fbase` stands for the
source file's base name `os.path.split(f)[1]`. -/
noncomputable def transform_file (decode : String → List ℝ)
    (d : List ℝ → List ℝ → ℝ) (corrVal : List ℝ → List ℕ → ℝ)
    (rng : Rng) (fbase : String) : Option (Option ℝ) :=
  match transforms.get? rng.specChoice with
  | Option.none => Option.none
  | some spec =>
    match sampleStage spec rng with
    | Option.none => Option.none
    | some out =>
      some (correlate_spec corrVal (fileDists decode d out fbase)
        (List.range (fileDists decode d out fbase).length))

/-- Modelled from the spec: the `TransformSpec` data-model invariant —
every continuous entry is a `(paramName, low, high)` triple with numeric
bounds `low ≤ high`, and the continuous list is non-empty.  (That the
categorical list consists of `(paramName, values)` pairs is enforced
structurally by the embedding's types.) -/
def specInvariant (s : TransformSpec) : Bool :=
  !s.continuous.isEmpty &&
    s.continuous.all (fun e =>
      match e with
      | .triple _ lo hi => decide (lo ≤ hi)
      | _ => false)

/-- The conversion `note_to_freq` is strictly increasing. -/
lemma note_to_freq_strictMono : StrictMono note_to_freq := by
  intro a b hab
  unfold note_to_freq
  have h2 : (1 : ℝ) < 2 := one_lt_two
  refine mul_lt_mul_of_pos_left ?_ (by norm_num)
  exact (Real.rpow_lt_rpow_left_iff h2).mpr (by linarith)

/-- Sorting commutes with mapping a monotone function. -/
lemma insertionSort_map_mono (f : ℝ → ℝ) (hf : Monotone f) (l : List ℝ) :
    (l.map f).insertionSort (fun a b => a ≤ b)
      = (l.insertionSort (fun a b => a ≤ b)).map f := by
  refine List.eq_of_perm_of_sorted
    ((List.perm_insertionSort _ _).trans
      (((List.perm_insertionSort _ l).map f).symm))
    (List.sorted_insertionSort _ _) ?_
  exact List.Pairwise.map f (fun a b h => hf h) (List.sorted_insertionSort _ l)

/-- Inserting an element into a constant run of itself keeps the run. -/
lemma orderedInsert_replicate (n : ℕ) (a : ℝ) :
    List.orderedInsert (fun x y => x ≤ y) a (List.replicate n a)
      = a :: List.replicate n a := by
  cases n with
  | zero => rfl
  | succ k =>
    rw [List.replicate_succ, List.orderedInsert, if_pos (le_refl a)]

/-- Sorting a constant list is the identity. -/
lemma insertionSort_replicate (n : ℕ) (a : ℝ) :
    List.insertionSort (fun x y => x ≤ y) (List.replicate n a)
      = List.replicate n a := by
  induction n with
  | zero => rfl
  | succ k ih =>
    rw [List.replicate_succ, List.insertionSort, ih, orderedInsert_replicate,
      ← List.replicate_succ]

/-- A concrete oracle: pick catalog entry 18 (`"speed"`), variable index
0, all uniform draws equal to 1. -/
def speedRng : Rng := ⟨18, 0, fun _ => 0, fun _ => 0, fun _ => 1⟩

/-- The `"speed"` catalog entry. -/
def speedSpec : TransformSpec := ⟨"speed", [.triple "factor" 0.5 1.5], []⟩

/-- The sample produced for `"speed"` under `speedRng`. -/
noncomputable def speedOut : SampleOut :=
  ⟨"speed", "factor", fixedParams speedSpec speedRng "factor",
    sweepValues "factor" speedRng⟩

lemma transforms_get_speed : transforms.get? 18 = some speedSpec := rfl

lemma sample_speed : sampleStage speedSpec speedRng = some speedOut := rfl

lemma sweepValues_speed :
    sweepValues "factor" speedRng = List.replicate 32 (1 : ℝ) := by
  have hcv : choose_value "factor" (1 : ℝ) = ("factor", 1) := by
    unfold choose_value
    rw [if_neg (by decide : ¬ ("factor" : String) = "midi")]
  unfold sweepValues
  simp only [speedRng, N_TRANSFORMS, hcv]
  rw [show ((List.range 32).map (fun _ => (((("factor" : String), (1:ℝ))).2)))
      = List.replicate 32 (1:ℝ) by
    rw [List.map_const', List.length_range]]
  rw [insertionSort_replicate]

/-- C1 / C2 failing input: the `"pitch"` catalog entry (index 16). -/
def pitchDefault : TransformSpec := ⟨"", [], []⟩

/-- C1. For every transform specification in the catalog and every
run of the per-file sampling step, the selected variable axis is one of
the entries of that specification's continuous parameter list, and the
produced sweep consists of exactly `N_TRANSFORMS = 32` values, sorted
ascending, each within the bounds of the selected axis.  This FAILS on
the code: for the `"pitch"` entry (catalog index 16) the sampling step
raises `ValueError` for every possible draw (its continuous list holds a
bare string and a bare pair instead of `(name, low, high)` triples, so
the unpacking loop of line 144 cannot run), hence no sweep is produced at
all.  The theorem evaluates the embedded sampling step at the failing
input: it returns `none` (the exception) for every oracle. -/
theorem c1_pitch_sampling_crashes (rng : Rng) :
    sampleStage (transforms.getD 16 pitchDefault) rng = Option.none := by
  have h : (transforms.getD 16 pitchDefault).continuous.all ContEntry.isTriple
      = false := by decide
  unfold sampleStage
  rw [h]
  simp

/-- C2. Every catalog entry satisfies the spec's `TransformSpec`
data-model invariant.  This FAILS on the code: the `"pitch"` entry
(line 103) violates it — its continuous list `["n_semitones", (-12, 12)]`
contains no `(name, low, high)` triple at all, contradicting the format
documented in the source's own comment (lines 27-28).  All 22 other
entries satisfy the invariant. -/
theorem c2_catalog_invariant_fails_at_pitch :
    specInvariant (transforms.getD 16 pitchDefault) = false
      ∧ (transforms.eraseIdx 16).all specInvariant = true := by
  constructor
  · decide
  · norm_num [transforms, specInvariant, List.eraseIdx, decide_eq_true_eq]

/-- C3. The midi-to-frequency conversion equals
`(440/32) * 2 ^ ((v - 9)/12)`, is strictly increasing, and therefore
converting each sampled value and then sorting yields the same ordered
sequence as sorting the raw MIDI values first and then converting each. -/
theorem c3_note_to_freq_monotone :
    (∀ v : ℝ, note_to_freq v = (440 / 32) * (2 : ℝ) ^ ((v - 9) / 12))
    ∧ StrictMono note_to_freq
    ∧ ∀ l : List ℝ, (l.map note_to_freq).insertionSort (fun a b => a ≤ b)
        = (l.insertionSort (fun a b => a ≤ b)).map note_to_freq :=
  ⟨fun _ => rfl, note_to_freq_strictMono,
    fun l => insertionSort_map_mono _ note_to_freq_strictMono.monotone l⟩

/-- C4. For every file's sweep, only the chosen variable axis differs
across the rendered parameter assignments: every key other than the
(renamed) variable label is bound identically in the assignments of any
two sweep values, and the variable label is bound to the respective sweep
value. -/
theorem c4_only_variable_differs (spec : TransformSpec) (rng : Rng)
    (out : SampleOut) (hs : sampleStage spec rng = some out) (v₁ v₂ : ℝ)
    (h1 : v₁ ∈ out.values) (h2 : v₂ ∈ out.values) :
    (∀ k, k ≠ renderLabel out.varName →
      mkAssignment out v₁ k = mkAssignment out v₂ k)
    ∧ mkAssignment out v₁ (renderLabel out.varName) = some (PVal.num v₁)
    ∧ mkAssignment out v₂ (renderLabel out.varName) = some (PVal.num v₂) := by
  refine ⟨fun k hk => ?_, ?_, ?_⟩ <;> simp [mkAssignment, insertP, if_neg, *]

/-- Witness for C4 at the `"speed"` entry under `speedRng`. -/
theorem c4_witness :
    (sampleStage speedSpec speedRng = some speedOut
      ∧ (1 : ℝ) ∈ speedOut.values ∧ (1 : ℝ) ∈ speedOut.values)
    ∧ ((∀ k, k ≠ renderLabel speedOut.varName →
        mkAssignment speedOut 1 k = mkAssignment speedOut 1 k)
      ∧ mkAssignment speedOut 1 (renderLabel speedOut.varName)
          = some (PVal.num 1)
      ∧ mkAssignment speedOut 1 (renderLabel speedOut.varName)
          = some (PVal.num 1)) :=
  ⟨⟨sample_speed, by simp [speedOut, sweepValues_speed],
      by simp [speedOut, sweepValues_speed]⟩,
    c4_only_variable_differs _ speedRng speedOut sample_speed 1 1
      (by simp [speedOut, sweepValues_speed])
      (by simp [speedOut, sweepValues_speed])⟩

/-- C6. Before each distance computation the two decoded buffers are
both truncated to the shorter of the two lengths (no padding, no
resampling); in particular buffers of lengths 100 and 80 are both cut to
their first 80 samples. -/
theorem c6_truncation :
    (∀ input target : List ℝ, truncStep input target =
      (input.take (min input.length target.length),
       target.take (min input.length target.length)))
    ∧ ∀ input target : List ℝ, input.length = 100 → target.length = 80 →
        truncStep input target = (input.take 80, target.take 80) := by
  have base : ∀ input target : List ℝ, truncStep input target =
      (input.take (min input.length target.length),
       target.take (min input.length target.length)) := by
    intro input target
    unfold truncStep
    split_ifs with h
    · rw [min_eq_left h.le, List.take_length]
    · rw [min_eq_right (le_of_not_lt h), List.take_length]
  refine ⟨base, fun input target h1 h2 => ?_⟩
  rw [base, h1, h2]
  norm_num

/-- Witness for C6 with deliberately mismatched buffers of lengths 100
and 80. -/
theorem c6_witness :
    (List.replicate 100 (0 : ℝ)).length = 100
    ∧ (List.replicate 80 (1 : ℝ)).length = 80
    ∧ truncStep (List.replicate 100 (0 : ℝ)) (List.replicate 80 (1 : ℝ))
        = ((List.replicate 100 (0 : ℝ)).take 80,
           (List.replicate 80 (1 : ℝ)).take 80) :=
  ⟨by simp, by simp,
    c6_truncation.2 _ _ (by simp) (by simp)⟩

/-- A successful sample always carries exactly `N_TRANSFORMS` values,
sorted ascending. -/
lemma sweepValues_length_sorted (vn : String) (rng : Rng) :
    (sweepValues vn rng).length = N_TRANSFORMS
      ∧ (sweepValues vn rng).Sorted (fun a b : ℝ => a ≤ b) := by
  constructor
  · rw [sweepValues, (List.perm_insertionSort _ _).length_eq, List.length_map,
      List.length_range]
  · unfold sweepValues
    exact List.sorted_insertionSort _ _

lemma sampleStage_values (spec : TransformSpec) (rng : Rng) (out : SampleOut)
    (hs : sampleStage spec rng = some out) :
    out.values.length = N_TRANSFORMS
      ∧ out.values.Sorted (fun a b : ℝ => a ≤ b) := by
  unfold sampleStage at hs
  split at hs
  · split at hs
    · cases hs
    · cases hs
    · cases hs
    · simp only [Option.some.injEq] at hs
      subst hs
      exact sweepValues_length_sorted _ _
  · cases hs

/-- One distance per non-anchor artifact. -/
lemma computeDists_length (decode : String → List ℝ)
    (d : List ℝ → List ℝ → ℝ) (outfiles : List String) :
    (computeDists decode d outfiles).length = outfiles.length - 1 := by
  cases outfiles <;> simp [computeDists]

/-- In a sorted list the first element is a lower bound. -/
lemma sorted_head_min {l : List ℝ} (hs : l.Sorted (fun a b : ℝ => a ≤ b)) :
    ∀ v ∈ l, l.getD 0 0 ≤ v := by
  cases l with
  | nil => intro v hv; cases hv
  | cons a t =>
    intro v hv
    rw [List.getD_cons_zero]
    rcases List.mem_cons.mp hv with rfl | hvt
    · exact le_refl v
    · exact (List.sorted_cons.mp hs).1 v hvt

/-- C5. The validator computes exactly `N_TRANSFORMS - 1 = 31`
distances, one per non-anchor artifact `i = 1..N-1` measured against the
anchor artifact at sweep index 0 (which carries the lowest swept value),
in original sweep order, and the run returns the rank correlation of that
distance sequence against the index sequence `[0, ..., N-2]`. -/
theorem c5_validator_structure (decode : String → List ℝ)
    (d : List ℝ → List ℝ → ℝ) (corrVal : List ℝ → List ℕ → ℝ) (rng : Rng)
    (fbase : String) (spec : TransformSpec) (out : SampleOut)
    (h1 : transforms.get? rng.specChoice = some spec)
    (h2 : sampleStage spec rng = some out) :
    (fileDists decode d out fbase).length = N_TRANSFORMS - 1
    ∧ (∀ i, i < N_TRANSFORMS - 1 → ∃ f2 anchor,
        (fileOutfiles out fbase).get? (i + 1) = some f2
        ∧ (fileOutfiles out fbase).get? 0 = some anchor
        ∧ (fileDists decode d out fbase).get? i
            = some (d (truncStep (decode f2) (decode anchor)).1
                      (truncStep (decode f2) (decode anchor)).2))
    ∧ (∀ v ∈ out.values, out.values.getD 0 0 ≤ v)
    ∧ transform_file decode d corrVal rng fbase
        = some (correlate_spec corrVal (fileDists decode d out fbase)
            (List.range (N_TRANSFORMS - 1))) := by
  obtain ⟨hlen, hsorted⟩ := sampleStage_values spec rng out h2
  have houtlen : (fileOutfiles out fbase).length = N_TRANSFORMS := by
    rw [fileOutfiles, mkOutfiles, List.length_map, hlen]
  have hdlen : (fileDists decode d out fbase).length = N_TRANSFORMS - 1 := by
    rw [fileDists, computeDists_length, houtlen]
  refine ⟨hdlen, ?_, sorted_head_min hsorted, ?_⟩
  · intro i hi
    rcases houtfiles : fileOutfiles out fbase with _ | ⟨a, rest⟩
    · rw [houtfiles] at houtlen; simp [N_TRANSFORMS] at houtlen
    · have hrest : rest.length = N_TRANSFORMS - 1 := by
        have := houtlen
        rw [houtfiles] at this
        simp only [List.length_cons] at this
        omega
      have hi' : i < rest.length := by omega
      obtain ⟨f2, hf2⟩ : ∃ x, rest.get? i = some x :=
        ⟨rest.get ⟨i, hi'⟩, List.get?_eq_get hi'⟩
      refine ⟨f2, a, ?_, ?_, ?_⟩
      · simpa using hf2
      · rfl
      · rw [fileDists, houtfiles, computeDists, List.get?_map, hf2]
        rfl
  · unfold transform_file
    rw [h1]
    simp only [h2]
    rw [hdlen]

/-- C9. A degenerate distance sequence (fewer than 2 samples, or a
constant sequence) makes the per-file validation complete normally with
an undefined/NaN coefficient (`some Option.none`: the file's run prints
NaN) rather than raising; and the modelled rank-correlation collaborator
returns the undefined value on every degenerate input. -/
theorem c9_degenerate_is_nan (decode : String → List ℝ)
    (d : List ℝ → List ℝ → ℝ) (corrVal : List ℝ → List ℕ → ℝ) (rng : Rng)
    (fbase : String) (spec : TransformSpec) (out : SampleOut)
    (h1 : transforms.get? rng.specChoice = some spec)
    (h2 : sampleStage spec rng = some out)
    (hconst : AllSame (fileDists decode d out fbase)) :
    transform_file decode d corrVal rng fbase = some Option.none
    ∧ ∀ (xs : List ℝ) (ys : List ℕ), xs.length < 2 ∨ AllSame xs →
        correlate_spec corrVal xs ys = Option.none := by
  have hgen : ∀ (xs : List ℝ) (ys : List ℕ), xs.length < 2 ∨ AllSame xs →
      correlate_spec corrVal xs ys = Option.none := by
    intro xs ys h
    unfold correlate_spec
    rw [if_neg]
    rintro ⟨hlen2, _, hnc, _⟩
    rcases h with h | h
    · omega
    · exact hnc h
  refine ⟨?_, hgen⟩
  unfold transform_file
  rw [h1]
  simp only [h2]
  rw [hgen _ _ (Or.inr hconst)]

/-- C10. Whenever a file reaches the correlation step, the distance
sequence has exactly `N_TRANSFORMS - 1 = 31` entries and is paired with
an index sequence of the same length, so the fewer-than-2-samples
degenerate case is unreachable and the rank-correlation collaborator's
equal-length, length-at-least-2 precondition is met. -/
theorem c10_correlation_precondition (decode : String → List ℝ)
    (d : List ℝ → List ℝ → ℝ) (rng : Rng) (fbase : String)
    (spec : TransformSpec) (out : SampleOut)
    (h1 : transforms.get? rng.specChoice = some spec)
    (h2 : sampleStage spec rng = some out) :
    (fileDists decode d out fbase).length = N_TRANSFORMS - 1
    ∧ 2 ≤ (fileDists decode d out fbase).length
    ∧ (List.range (fileDists decode d out fbase).length).length
        = (fileDists decode d out fbase).length := by
  have hlen := (sampleStage_values spec rng out h2).1
  have hdlen : (fileDists decode d out fbase).length = N_TRANSFORMS - 1 := by
    rw [fileDists, computeDists_length, fileOutfiles, mkOutfiles,
      List.length_map, hlen]
  refine ⟨hdlen, ?_, by rw [List.length_range]⟩
  rw [hdlen]
  norm_num [N_TRANSFORMS]

lemma renderLabel_factor : renderLabel "factor" = "factor" := by
  unfold renderLabel
  rw [if_neg (by decide : ¬ ("factor" : String) = "midi")]

lemma fileOutfiles_speed :
    fileOutfiles speedOut "f.wav"
      = List.replicate 32 (outPath "speed" "f.wav" "factor" 1) := by
  unfold fileOutfiles mkOutfiles
  rw [show speedOut.values = sweepValues "factor" speedRng from rfl,
    sweepValues_speed,
    show speedOut.varName = "factor" from rfl, renderLabel_factor,
    show speedOut.transform = "speed" from rfl, List.map_replicate]

lemma fileDists_speed :
    fileDists (fun _ => []) (fun _ _ => (0 : ℝ)) speedOut "f.wav"
      = List.replicate 31 0 := by
  unfold fileDists
  rw [fileOutfiles_speed, show (32 : ℕ) = 31 + 1 from rfl,
    List.replicate_succ, computeDists]
  rw [show ((fun f2 =>
      let input := (fun _ : String => ([] : List ℝ)) f2
      let target := (fun _ : String => ([] : List ℝ))
        (outPath "speed" "f.wav" "factor" 1)
      (fun _ _ => (0 : ℝ)) (truncStep input target).1 (truncStep input target).2)
      : String → ℝ) = fun _ => 0 from rfl]
  rw [List.map_const', List.length_replicate]

lemma allSame_replicate (n : ℕ) (a : ℝ) : AllSame (List.replicate n a) := by
  intro x hx y hy
  rw [List.eq_of_mem_replicate hx, List.eq_of_mem_replicate hy]

/-- Witness for C5 at the `"speed"` entry under `speedRng`, with trivial
decode/distance/correlation collaborators. -/
theorem c5_witness :
    (transforms.get? speedRng.specChoice = some speedSpec
      ∧ sampleStage speedSpec speedRng = some speedOut)
    ∧ ((fileDists (fun _ => []) (fun _ _ => (0 : ℝ)) speedOut
          "f.wav").length = N_TRANSFORMS - 1
      ∧ (∀ i, i < N_TRANSFORMS - 1 → ∃ f2 anchor,
          (fileOutfiles speedOut "f.wav").get? (i + 1) = some f2
          ∧ (fileOutfiles speedOut "f.wav").get? 0 = some anchor
          ∧ (fileDists (fun _ => []) (fun _ _ => (0 : ℝ)) speedOut
                "f.wav").get? i
              = some ((fun _ _ => (0 : ℝ))
                  (truncStep ((fun _ => []) f2) ((fun _ => []) anchor)).1
                  (truncStep ((fun _ => []) f2) ((fun _ => []) anchor)).2))
      ∧ (∀ v ∈ speedOut.values, speedOut.values.getD 0 0 ≤ v)
      ∧ transform_file (fun _ => []) (fun _ _ => (0 : ℝ)) (fun _ _ => 0)
            speedRng "f.wav"
          = some (correlate_spec (fun _ _ => 0)
              (fileDists (fun _ => []) (fun _ _ => (0 : ℝ)) speedOut "f.wav")
              (List.range (N_TRANSFORMS - 1)))) :=
  ⟨⟨transforms_get_speed, sample_speed⟩,
    c5_validator_structure (fun _ => []) (fun _ _ => (0 : ℝ)) (fun _ _ => 0)
      speedRng "f.wav" speedSpec speedOut transforms_get_speed sample_speed⟩

/-- Witness for C9: under `speedRng` with a constant distance collaborator
the run completes with the undefined/NaN coefficient. -/
theorem c9_witness :
    (transforms.get? speedRng.specChoice = some speedSpec
      ∧ sampleStage speedSpec speedRng = some speedOut
      ∧ AllSame (fileDists (fun _ => []) (fun _ _ => (0 : ℝ)) speedOut
          "f.wav"))
    ∧ transform_file (fun _ => []) (fun _ _ => 0) (fun _ _ => 0) speedRng
        "f.wav" = some Option.none :=
  ⟨⟨transforms_get_speed, sample_speed,
      by rw [fileDists_speed]; exact allSame_replicate _ _⟩,
    (c9_degenerate_is_nan (fun _ => []) (fun _ _ => 0) (fun _ _ => 0)
      speedRng "f.wav" speedSpec speedOut transforms_get_speed sample_speed
      (by rw [fileDists_speed]; exact allSame_replicate _ _)).1⟩

/-- Witness for C10 at the `"speed"` entry under `speedRng`. -/
theorem c10_witness :
    (transforms.get? speedRng.specChoice = some speedSpec
      ∧ sampleStage speedSpec speedRng = some speedOut)
    ∧ ((fileDists (fun _ => []) (fun _ _ => (0 : ℝ)) speedOut
          "f.wav").length = N_TRANSFORMS - 1
      ∧ 2 ≤ (fileDists (fun _ => []) (fun _ _ => (0 : ℝ)) speedOut
          "f.wav").length
      ∧ (List.range (fileDists (fun _ => []) (fun _ _ => (0 : ℝ)) speedOut
          "f.wav").length).length
          = (fileDists (fun _ => []) (fun _ _ => (0 : ℝ)) speedOut
              "f.wav").length) :=
  ⟨⟨transforms_get_speed, sample_speed⟩,
    c10_correlation_precondition (fun _ => []) (fun _ _ => (0 : ℝ)) speedRng
      "f.wav" speedSpec speedOut transforms_get_speed sample_speed⟩

lemma revDigitsAux_congr : ∀ f₁ f₂ n, 0 < f₁ → 0 < f₂ → n < 10 ^ f₁ →
    n < 10 ^ f₂ → revDigitsAux f₁ n = revDigitsAux f₂ n := by
  intro f₁
  induction f₁ with
  | zero => intro f₂ n h; omega
  | succ k ih =>
    intro f₂ n _ hf₂ hn₁ hn₂
    cases f₂ with
    | zero => omega
    | succ m =>
      show (if n < 10 then [n] else n % 10 :: revDigitsAux k (n / 10))
        = (if n < 10 then [n] else n % 10 :: revDigitsAux m (n / 10))
      by_cases h : n < 10
      · rw [if_pos h, if_pos h]
      · rw [if_neg h, if_neg h]
        have hk : 0 < k := by
          rcases Nat.eq_zero_or_pos k with rfl | hk
          · simp at hn₁; omega
          · exact hk
        have hm : 0 < m := by
          rcases Nat.eq_zero_or_pos m with rfl | hm
          · simp at hn₂; omega
          · exact hm
        have h₁ : n / 10 < 10 ^ k := by
          rw [pow_succ] at hn₁
          generalize (10 : ℕ) ^ k = K at hn₁ ⊢
          omega
        have h₂ : n / 10 < 10 ^ m := by
          rw [pow_succ] at hn₂
          generalize (10 : ℕ) ^ m = K at hn₂ ⊢
          omega
        rw [ih m (n / 10) hk hm h₁ h₂]

lemma revDigits_lt10 {n : ℕ} (h : n < 10) : revDigits n = [n] := by
  show (if n < 10 then [n] else n % 10 :: revDigitsAux n (n / 10)) = [n]
  rw [if_pos h]

lemma revDigits_ge10 {n : ℕ} (h : 10 ≤ n) :
    revDigits n = n % 10 :: revDigits (n / 10) := by
  show (if n < 10 then [n] else n % 10 :: revDigitsAux n (n / 10))
    = n % 10 :: revDigits (n / 10)
  rw [if_neg (by omega)]
  congr 1
  apply revDigitsAux_congr
  · omega
  · omega
  · calc n / 10 < 10 ^ (n / 10) := Nat.lt_pow_self (by norm_num) _
      _ ≤ 10 ^ n := Nat.pow_le_pow_right (by norm_num) (by omega)
  · exact lt_of_lt_of_le (Nat.lt_pow_self (by norm_num) (n / 10))
      (Nat.pow_le_pow_right (by norm_num) (by omega))

lemma decimalStr_lt10 {n : ℕ} (h : n < 10) :
    decimalStr n = [Nat.digitChar n] := by
  unfold decimalStr
  rw [revDigits_lt10 h]
  rfl

lemma decimalStr_ge10 {n : ℕ} (h : 10 ≤ n) :
    decimalStr n = decimalStr (n / 10) ++ [Nat.digitChar (n % 10)] := by
  unfold decimalStr
  rw [revDigits_ge10 h, List.map_cons, List.reverse_cons]

lemma digitChar_isDigit :
    ∀ d, d < 10 → 48 ≤ (Nat.digitChar d).toNat ∧ (Nat.digitChar d).toNat ≤ 57 := by
  decide

lemma digitChar_toNat : ∀ d, d < 10 → (Nat.digitChar d).toNat = 48 + d := by
  decide

lemma revDigits_mem_lt (n : ℕ) : ∀ d ∈ revDigits n, d < 10 := by
  induction n using Nat.strong_induction_on with
  | _ n ih =>
    by_cases h : n < 10
    · rw [revDigits_lt10 h]
      intro d hd
      rw [List.mem_singleton.mp hd]
      exact h
    · rw [revDigits_ge10 (by omega)]
      intro d hd
      rcases List.mem_cons.mp hd with rfl | hd2
      · omega
      · exact ih (n / 10) (by omega) d hd2

lemma decimalStr_digits (n : ℕ) :
    ∀ c ∈ decimalStr n, 48 ≤ c.toNat ∧ c.toNat ≤ 57 := by
  intro c hc
  unfold decimalStr at hc
  rw [List.mem_reverse] at hc
  obtain ⟨d, hd, rfl⟩ := List.mem_map.mp hc
  exact digitChar_isDigit d (revDigits_mem_lt n d hd)

lemma length_decimalStr_le : ∀ w n, 0 < w → n < 10 ^ w →
    (decimalStr n).length ≤ w := by
  intro w
  induction w with
  | zero => intro n h; omega
  | succ k ih =>
    intro n _ hn
    by_cases h : n < 10
    · rw [decimalStr_lt10 h]
      simp
    · rw [decimalStr_ge10 (by omega), List.length_append]
      have hk : 0 < k := by
        rcases Nat.eq_zero_or_pos k with rfl | hk
        · simp at hn; omega
        · exact hk
      have hdiv : n / 10 < 10 ^ k := by
        rw [pow_succ] at hn
        generalize (10 : ℕ) ^ k = K at hn ⊢
        omega
      have := ih (n / 10) hk hdiv
      simp only [List.length_singleton]
      omega

/-- The numeric value of a digit string (most significant first). -/
def digitsVal : List Char → ℕ
  | [] => 0
  | c :: cs => (c.toNat - 48) * 10 ^ cs.length + digitsVal cs

lemma digitsVal_append_singleton (s : List Char) (c : Char) :
    digitsVal (s ++ [c]) = 10 * digitsVal s + (c.toNat - 48) := by
  induction s with
  | nil => simp [digitsVal]
  | cons d ds ih =>
    show (d.toNat - 48) * 10 ^ (ds ++ [c]).length + digitsVal (ds ++ [c])
      = 10 * ((d.toNat - 48) * 10 ^ ds.length + digitsVal ds) + (c.toNat - 48)
    rw [ih, List.length_append, List.length_singleton]
    ring

lemma digitsVal_decimalStr (n : ℕ) : digitsVal (decimalStr n) = n := by
  induction n using Nat.strong_induction_on with
  | _ n ih =>
    by_cases h : n < 10
    · rw [decimalStr_lt10 h]
      simp [digitsVal, digitChar_toNat n h]
    · rw [decimalStr_ge10 (by omega), digitsVal_append_singleton,
        ih (n / 10) (by omega), digitChar_toNat (n % 10) (by omega)]
      omega

lemma digitsVal_replicate_zero (k : ℕ) (s : List Char) :
    digitsVal (List.replicate k '0' ++ s) = digitsVal s := by
  induction k with
  | zero => simp
  | succ m ih =>
    rw [List.replicate_succ, List.cons_append]
    simp only [digitsVal]
    rw [ih, show ('0'.toNat - 48) = 0 from rfl, zero_mul, zero_add]

lemma digitsVal_padZeros (w n : ℕ) :
    digitsVal (padZeros w (decimalStr n)) = n := by
  unfold padZeros
  rw [digitsVal_replicate_zero, digitsVal_decimalStr]

lemma length_padZeros (w : ℕ) (s : List Char) :
    (padZeros w s).length = max w s.length := by
  unfold padZeros
  rw [List.length_append, List.length_replicate]
  omega

lemma padZeros_digits (w n : ℕ) :
    ∀ c ∈ padZeros w (decimalStr n), 48 ≤ c.toNat ∧ c.toNat ≤ 57 := by
  intro c hc
  unfold padZeros at hc
  rcases List.mem_append.mp hc with h | h
  · rw [List.eq_of_mem_replicate h]
    decide
  · exact decimalStr_digits n c h

lemma length_padZeros_decimal {w n : ℕ} (hw : 0 < w) (hn : n < 10 ^ w) :
    (padZeros w (decimalStr n)).length = w := by
  rw [length_padZeros]
  have := length_decimalStr_le w n hw hn
  omega

lemma digitsVal_lt (s : List Char)
    (hd : ∀ c ∈ s, 48 ≤ c.toNat ∧ c.toNat ≤ 57) :
    digitsVal s < 10 ^ s.length := by
  induction s with
  | nil => simp [digitsVal]
  | cons c cs ih =>
    have hc := hd c (by simp)
    have h2 := ih (fun x hx => hd x (by simp [hx]))
    simp only [digitsVal, List.length_cons, pow_succ]
    have hmul : (c.toNat - 48) * 10 ^ cs.length ≤ 9 * 10 ^ cs.length :=
      Nat.mul_le_mul_right _ (by omega)
    generalize (10 : ℕ) ^ cs.length = K at h2 hmul ⊢
    omega

lemma lex_of_digitsVal_lt : ∀ (s t : List Char), s.length = t.length →
    (∀ c ∈ s, 48 ≤ c.toNat ∧ c.toNat ≤ 57) →
    (∀ c ∈ t, 48 ≤ c.toNat ∧ c.toNat ≤ 57) →
    digitsVal s < digitsVal t →
    List.Lex (fun a b : Char => a < b) s t := by
  intro s
  induction s with
  | nil =>
    intro t hlen _ _ hv
    cases t with
    | nil => simp [digitsVal] at hv
    | cons e es => simp at hlen
  | cons c cs ih =>
    intro t hlen hds hdt hv
    cases t with
    | nil => simp at hlen
    | cons e es =>
      have hlen2 : cs.length = es.length := by simpa using hlen
      rcases lt_trichotomy c e with hlt | heq | hgt
      · exact List.Lex.rel hlt
      · subst heq
        refine List.Lex.cons (ih es hlen2 (fun x hx => hds x (by simp [hx]))
          (fun x hx => hdt x (by simp [hx])) ?_)
        simp only [digitsVal, hlen2] at hv
        omega
      · exfalso
        have hce : e.toNat < c.toNat := hgt
        have h48c := (hds c (by simp)).1
        have h48e := (hdt e (by simp)).1
        have hvt : digitsVal es < 10 ^ es.length :=
          digitsVal_lt es (fun x hx => hdt x (by simp [hx]))
        have hmul : (e.toNat - 48 + 1) * 10 ^ es.length
            ≤ (c.toNat - 48) * 10 ^ es.length :=
          Nat.mul_le_mul_right _ (by omega)
        rw [add_mul, one_mul] at hmul
        simp only [digitsVal, hlen2] at hv
        have hnn : 0 ≤ digitsVal cs := Nat.zero_le _
        linarith

lemma lex_append_of_lex {s t : List Char} (u v : List Char)
    (h : List.Lex (fun a b : Char => a < b) s t) (hlen : s.length = t.length) :
    List.Lex (fun a b : Char => a < b) (s ++ u) (t ++ v) := by
  induction h with
  | nil => simp at hlen
  | rel hab => exact List.Lex.rel hab
  | cons h ih => exact List.Lex.cons (ih (by simpa using hlen))

lemma lex_append_left {u v : List Char} (s : List Char)
    (h : List.Lex (fun a b : Char => a < b) u v) :
    List.Lex (fun a b : Char => a < b) (s ++ u) (s ++ v) := by
  induction s with
  | nil => exact h
  | cons a as ih => exact List.Lex.cons ih

lemma formatThousandths_toList_nonneg (n : ℤ) (h : 0 ≤ n) :
    (formatThousandths n).toList
      = padZeros 6 (decimalStr (n.natAbs / 1000))
        ++ '.' :: padZeros 3 (decimalStr (n.natAbs % 1000)) := by
  unfold formatThousandths
  rw [if_neg (by omega), if_neg (by omega)]
  rfl

lemma formatThousandths_toList_neg (n : ℤ) (h : n < 0) :
    (formatThousandths n).toList
      = '-' :: (padZeros 5 (decimalStr (n.natAbs / 1000))
        ++ '.' :: padZeros 3 (decimalStr (n.natAbs % 1000))) := by
  unfold formatThousandths
  rw [if_pos h, if_pos h]
  rfl

lemma formatNat_lex_lt (a b : ℕ) (hab : a < b) (hb : b < 10 ^ 9) :
    List.Lex (fun x y : Char => x < y)
      (padZeros 6 (decimalStr (a / 1000)) ++ '.' :: padZeros 3 (decimalStr (a % 1000)))
      (padZeros 6 (decimalStr (b / 1000)) ++ '.' :: padZeros 3 (decimalStr (b % 1000))) := by
  have ha6 : a / 1000 < 10 ^ 6 := by omega
  have hb6 : b / 1000 < 10 ^ 6 := by omega
  rcases lt_trichotomy (a / 1000) (b / 1000) with h | h | h
  · refine lex_append_of_lex _ _ ?_ ?_
    · refine lex_of_digitsVal_lt _ _ ?_ (padZeros_digits _ _) (padZeros_digits _ _) ?_
      · rw [length_padZeros_decimal (by norm_num) ha6,
          length_padZeros_decimal (by norm_num) hb6]
      · rw [digitsVal_padZeros, digitsVal_padZeros]
        exact h
    · rw [length_padZeros_decimal (by norm_num) ha6,
        length_padZeros_decimal (by norm_num) hb6]
  · rw [show padZeros 6 (decimalStr (a / 1000)) = padZeros 6 (decimalStr (b / 1000))
      by rw [h]]
    refine lex_append_left _ (List.Lex.cons ?_)
    refine lex_of_digitsVal_lt _ _ ?_ (padZeros_digits _ _) (padZeros_digits _ _) ?_
    · rw [length_padZeros_decimal (by norm_num) (by omega : a % 1000 < 10 ^ 3),
        length_padZeros_decimal (by norm_num) (by omega : b % 1000 < 10 ^ 3)]
    · rw [digitsVal_padZeros, digitsVal_padZeros]
      omega
  · omega

lemma formatThousandths_lt_nonneg (n₁ n₂ : ℤ) (h0 : 0 ≤ n₁) (h12 : n₁ < n₂)
    (hb : n₂ < 10 ^ 9) :
    formatThousandths n₁ < formatThousandths n₂ := by
  rw [String.lt_iff_toList_lt, formatThousandths_toList_nonneg _ h0,
    formatThousandths_toList_nonneg _ (by omega)]
  exact formatNat_lex_lt n₁.natAbs n₂.natAbs (by omega) (by omega)

/-- Monotone formatting for non-negative values up to 999999. -/
lemma format10_3_le_of_nonneg (v₁ v₂ : ℝ) (h0 : 0 ≤ v₁) (h12 : v₁ ≤ v₂)
    (hb : v₂ ≤ 999999) :
    format10_3 v₁ ≤ format10_3 v₂ := by
  unfold format10_3
  have hr : round (v₁ * 1000) ≤ round (v₂ * 1000) := by
    rw [round_eq, round_eq]
    exact Int.floor_mono (by linarith)
  rcases eq_or_lt_of_le hr with heq | hlt
  · rw [heq]
  · refine le_of_lt (formatThousandths_lt_nonneg _ _ ?_ hlt ?_)
    · rw [round_eq]
      rw [Int.le_floor]
      push_cast
      linarith
    · rw [round_eq]
      have : ⌊v₂ * 1000 + 1 / 2⌋ < (10 : ℤ) ^ 9 := by
        rw [Int.floor_lt]
        push_cast
        linarith
      exact this

lemma padZeros_decimal_inj {w a b : ℕ}
    (h : padZeros w (decimalStr a) = padZeros w (decimalStr b)) : a = b := by
  have := congrArg digitsVal h
  rwa [digitsVal_padZeros, digitsVal_padZeros] at this

lemma formatThousandths_inj (n₁ n₂ : ℤ) (h1 : n₁.natAbs < 10 ^ 8)
    (h2 : n₂.natAbs < 10 ^ 8) (hne : n₁ ≠ n₂) :
    formatThousandths n₁ ≠ formatThousandths n₂ := by
  intro heq
  have hdata := congrArg String.toList heq
  have hm45 : ('-').toNat = 45 := rfl
  rcases lt_or_le n₁ 0 with hneg1 | hpos1 <;>
    rcases lt_or_le n₂ 0 with hneg2 | hpos2
  · rw [formatThousandths_toList_neg _ hneg1,
      formatThousandths_toList_neg _ hneg2] at hdata
    have htail := (List.cons.inj hdata).2
    obtain ⟨hip, hfrac⟩ := List.append_inj htail
      (by rw [length_padZeros_decimal (by norm_num) (by omega : n₁.natAbs / 1000 < 10 ^ 5),
        length_padZeros_decimal (by norm_num) (by omega : n₂.natAbs / 1000 < 10 ^ 5)])
    have hipv := padZeros_decimal_inj hip
    have hfpv := padZeros_decimal_inj (List.cons.inj hfrac).2
    exact hne (by omega)
  · rw [formatThousandths_toList_neg _ hneg1,
      formatThousandths_toList_nonneg _ hpos2] at hdata
    rcases hpz : padZeros 6 (decimalStr (n₂.natAbs / 1000)) with _ | ⟨c, cs⟩
    · have h6 := length_padZeros_decimal (by norm_num)
        (by omega : n₂.natAbs / 1000 < 10 ^ 6)
      rw [hpz] at h6
      simp at h6
    · rw [hpz, List.cons_append] at hdata
      have hc := (List.cons.inj hdata).1
      have hcd := padZeros_digits 6 (n₂.natAbs / 1000) c (by rw [hpz]; simp)
      rw [← hc, hm45] at hcd
      omega
  · rw [formatThousandths_toList_neg _ hneg2,
      formatThousandths_toList_nonneg _ hpos1] at hdata
    rcases hpz : padZeros 6 (decimalStr (n₁.natAbs / 1000)) with _ | ⟨c, cs⟩
    · have h6 := length_padZeros_decimal (by norm_num)
        (by omega : n₁.natAbs / 1000 < 10 ^ 6)
      rw [hpz] at h6
      simp at h6
    · rw [hpz, List.cons_append] at hdata
      have hc := (List.cons.inj hdata.symm).1
      have hcd := padZeros_digits 6 (n₁.natAbs / 1000) c (by rw [hpz]; simp)
      rw [← hc, hm45] at hcd
      omega
  · rw [formatThousandths_toList_nonneg _ hpos1,
      formatThousandths_toList_nonneg _ hpos2] at hdata
    obtain ⟨hip, hfrac⟩ := List.append_inj hdata
      (by rw [length_padZeros_decimal (by norm_num) (by omega : n₁.natAbs / 1000 < 10 ^ 6),
        length_padZeros_decimal (by norm_num) (by omega : n₂.natAbs / 1000 < 10 ^ 6)])
    have hipv := padZeros_decimal_inj hip
    have hfpv := padZeros_decimal_inj (List.cons.inj hfrac).2
    exact hne (by omega)

lemma round_mul_1000_natAbs_lt (v : ℝ) (h : |v| ≤ 10 ^ 4) :
    (round (v * 1000)).natAbs < 10 ^ 8 := by
  have habs := abs_le.mp h
  rw [round_eq]
  have hup : ⌊v * 1000 + 1 / 2⌋ < (10 : ℤ) ^ 8 := by
    rw [Int.floor_lt]
    push_cast
    linarith
  have hdown : (-(10 : ℤ) ^ 8 + 1) ≤ ⌊v * 1000 + 1 / 2⌋ := by
    apply Int.le_floor.mpr
    push_cast
    linarith
  omega

/-- C7, counterexample.  The fixed-width 3-decimal zero-padded
formatting is NOT order-preserving on negative values: `-5 < -3` but the
formatted string of `-3` is lexically smaller than that of `-5`
(`"-00003.000" < "-00005.000"` while the numeric order is the other way
round), so lexical sort of formatted values does not match numeric sort.
Negative values are reachable: e.g. flanger's `regen` is drawn from
`[-95, 95]` and gain parameters from `[-20, 20]`. -/
theorem c7_counterexample :
    ((-5 : ℝ) < -3) ∧ format10_3 (-3 : ℝ) < format10_3 (-5 : ℝ) := by
  refine ⟨by norm_num, ?_⟩
  unfold format10_3
  rw [show ((-3 : ℝ) * 1000) = ((-3000 : ℤ) : ℝ) by norm_num, round_intCast,
    show ((-5 : ℝ) * 1000) = ((-5000 : ℤ) : ℝ) by norm_num, round_intCast,
    String.lt_iff_toList_lt]
  decide

/-- C7, amended.  Each rendered artifact's file name follows the
pattern `{transform}-{sourceBaseName}-{variableLabel}-{value}` with the
value formatted fixed-width, 3-decimal, zero-padded, and the
variableLabel equal to `"frequency"` exactly when the swept parameter was
`"midi"`; and the formatting is (weakly) order-preserving for
NON-NEGATIVE values up to 999999, so for sweeps of non-negative values
lexical sort of the formatted strings agrees with numeric sort up to
rounding ties.  (Unrestricted order preservation is refuted by
`c7_counterexample`; strictness is lost because distinct values may round
to the same 3-decimal string.) -/
theorem c7_filename_amended :
    (∀ (t fb lbl : String) (values : List ℝ) (i : ℕ) (hi : i < values.length),
      (mkOutfiles t fb lbl values).get? i
        = some ("data/transforms/" ++ t ++ "-" ++ fb ++ "-" ++ lbl ++ "-"
            ++ format10_3 (values.get ⟨i, hi⟩) ++ ".ogg"))
    ∧ (∀ name : String,
        renderLabel name = if name = "midi" then "frequency" else name)
    ∧ (∀ v₁ v₂ : ℝ, 0 ≤ v₁ → v₁ ≤ v₂ → v₂ ≤ 999999 →
        format10_3 v₁ ≤ format10_3 v₂) := by
  refine ⟨?_, fun _ => rfl, format10_3_le_of_nonneg⟩
  intro t fb lbl values i hi
  rw [mkOutfiles, List.get?_map, List.get?_eq_get hi]
  rfl

/-- Witness for the amended C7. -/
theorem c7_witness :
    (0 < [(2 : ℝ)].length
      ∧ (mkOutfiles "speed" "f.wav" "factor" [(2 : ℝ)]).get? 0
          = some ("data/transforms/" ++ "speed" ++ "-" ++ "f.wav" ++ "-"
              ++ "factor" ++ "-"
              ++ format10_3 ([(2 : ℝ)].get ⟨0, by norm_num⟩) ++ ".ogg"))
    ∧ renderLabel "midi" = (if ("midi" : String) = "midi" then "frequency" else "midi")
    ∧ ((0 : ℝ) ≤ 0 ∧ (0 : ℝ) ≤ 1 ∧ (1 : ℝ) ≤ 999999
      ∧ format10_3 0 ≤ format10_3 1) :=
  ⟨⟨by norm_num,
      c7_filename_amended.1 "speed" "f.wav" "factor" [2] 0 (by norm_num)⟩,
    c7_filename_amended.2.1 "midi",
    le_refl 0, by norm_num, by norm_num,
    c7_filename_amended.2.2 0 1 (le_refl 0) (by norm_num) (by norm_num)⟩

/-- C8, counterexample.  Two distinct sweep values can yield the SAME
derived output path: `0.0001 ≠ 0.0002` but both round to `"000000.000"`,
so one rendered artifact overwrites the other (both values are drawable
for e.g. contrast's `amount ∈ [0, 100]`). -/
theorem c8_counterexample :
    (0.0001 : ℝ) ≠ (0.0002 : ℝ)
    ∧ outPath "contrast" "f.wav" "amount" (0.0001 : ℝ)
        = outPath "contrast" "f.wav" "amount" (0.0002 : ℝ) := by
  refine ⟨by norm_num, ?_⟩
  unfold outPath format10_3
  rw [show ((0.0001 : ℝ) * 1000) = (0.1 : ℝ) by norm_num,
    show ((0.0002 : ℝ) * 1000) = (0.2 : ℝ) by norm_num,
    show round (0.1 : ℝ) = 0 by
      rw [round_eq, show (0.1 : ℝ) + 1 / 2 = 0.6 by norm_num]
      rw [Int.floor_eq_iff]
      constructor <;> norm_num,
    show round (0.2 : ℝ) = 0 by
      rw [round_eq, show (0.2 : ℝ) + 1 / 2 = 0.7 by norm_num]
      rw [Int.floor_eq_iff]
      constructor <;> norm_num]

/-- C8, amended.  The derived output path is unique per swept value
as long as the two values differ after rounding to the formatted
3-decimal grid (and are within the bounded magnitude `|v| ≤ 10^4`, which
covers every value the catalog can produce — the largest is
`note_to_freq 108 < 4187`): distinct roundings give distinct paths.
Values that round to the same thousandth collide, as shown by
`c8_counterexample`. -/
theorem c8_unique_paths_amended (t fb lbl : String) (v₁ v₂ : ℝ)
    (hne : round (v₁ * 1000) ≠ round (v₂ * 1000))
    (hb₁ : |v₁| ≤ 10 ^ 4) (hb₂ : |v₂| ≤ 10 ^ 4) :
    outPath t fb lbl v₁ ≠ outPath t fb lbl v₂ := by
  intro heq
  have hdata := congrArg String.data heq
  unfold outPath format10_3 at hdata
  simp only [String.data_append, List.append_assoc] at hdata
  have h1 := List.append_cancel_left hdata
  have h2 := List.append_cancel_left h1
  have h3 := List.append_cancel_left h2
  have h4 := List.append_cancel_left h3
  have h5 := List.append_cancel_left h4
  have h6 := List.append_cancel_left h5
  have h7 := List.append_cancel_left h6
  have h8 := List.append_cancel_right h7
  exact formatThousandths_inj _ _ (round_mul_1000_natAbs_lt v₁ hb₁)
    (round_mul_1000_natAbs_lt v₂ hb₂) hne (String.ext h8)

/-- Witness for the amended C8. -/
theorem c8_witness :
    (round ((0 : ℝ) * 1000) ≠ round ((1 : ℝ) * 1000)
      ∧ |(0 : ℝ)| ≤ 10 ^ 4 ∧ |(1 : ℝ)| ≤ 10 ^ 4)
    ∧ outPath "speed" "f.wav" "factor" (0 : ℝ)
        ≠ outPath "speed" "f.wav" "factor" (1 : ℝ) :=
  have hr : round ((0 : ℝ) * 1000) ≠ round ((1 : ℝ) * 1000) := by
    rw [show ((0 : ℝ) * 1000) = ((0 : ℤ) : ℝ) by norm_num,
      show ((1 : ℝ) * 1000) = ((1000 : ℤ) : ℝ) by norm_num,
      round_intCast, round_intCast]
    decide
  ⟨⟨hr, by norm_num, by norm_num⟩,
    c8_unique_paths_amended "speed" "f.wav" "factor" 0 1 hr
      (by norm_num) (by norm_num)⟩
